import Mathlib

/-!
# Verification of the Babelon Azure Speech service orchestration layer

Shallow embedding of the session-orchestration logic of the repository
(`main.py`, `api/azure_speech.py`, `api/audio_utils.py`, `lib/constant.py`).

Text is modelled as `List Nat` of Unicode code points, so that the CJK
character-class tests of the source (`re` character ranges, `'一' <= ch`)
translate directly.  Language codes, which are ASCII throughout the source,
are modelled as `String`.  Wall-clock quantities and real-time factors are
modelled as `ℚ`.
-/

namespace Babelon

/-- Python's whitespace class for `str` patterns (`\s` in `re`, and the
default strip set of `str.strip`): the Unicode whitespace code points. -/
def pyIsSpace (c : Nat) : Bool :=
  decide (c = 32 ∨ (9 ≤ c ∧ c ≤ 13) ∨ (28 ≤ c ∧ c ≤ 31) ∨ c = 133 ∨ c = 160 ∨
    c = 5760 ∨ (8192 ≤ c ∧ c ≤ 8202) ∨ c = 8232 ∨ c = 8233 ∨ c = 8239 ∨
    c = 8287 ∨ c = 12288)

/-- The CJK ideograph range `[一-鿿]` used by the regexes and the
per-character test in `transcribe` (azure_speech.py lines 305, 430). -/
def isCJK (c : Nat) : Bool :=
  decide (0x4e00 ≤ c ∧ c ≤ 0x9fff)

/-- The six full-width punctuation marks of the regex `［，。？！；：］`
(azure_speech.py line 307): U+FF0C U+3002 U+FF1F U+FF01 U+FF1B U+FF1A. -/
def isCJKPunct (c : Nat) : Bool :=
  decide (c = 0xFF0C ∨ c = 0x3002 ∨ c = 0xFF1F ∨ c = 0xFF01 ∨ c = 0xFF1B ∨ c = 0xFF1A)

/-- Python `str.strip()` on a code-point list: drop leading and trailing
Unicode whitespace. -/
def pyStrip (s : List Nat) : List Nat :=
  ((s.dropWhile pyIsSpace).reverse.dropWhile pyIsSpace).reverse

/-! ## lib/constant.py : language tables -/

/-- `LANGUAGE_LIST = ['zh', 'en', 'de']` (constant.py line 44). -/
def LANGUAGE_LIST : List String := ["zh", "en", "de"]

/-- `LANGUAGE_MATCH.get(code, code)`: the forward alias lookup with
pass-through default (constant.py lines 45-47). -/
def LANGUAGE_MATCH (l : String) : String :=
  if l = "zh" then "zh-TW"
  else if l = "en" then "en-US"
  else if l = "de" then "de-DE"
  else l

/-- `LANGUAGE_MATCH_BACK.get(code, code)`: the backward alias lookup with
pass-through default (constant.py lines 48-51). -/
def LANGUAGE_MATCH_BACK (l : String) : String :=
  if l = "zh-Hant" then "zh"
  else if l = "zh-TW" then "zh"
  else if l = "en-US" then "en"
  else if l = "de-DE" then "de"
  else l

/-! ## api/audio_utils.py : calculate_rtf -/

/-- The shapes `result.duration` can take in `calculate_rtf`
(audio_utils.py lines 41-48): an `int` tick count, a timedelta-like value
exposing `total_seconds`, a plain numeric value, or `None`. -/
inductive EngineDuration
  | ticks (n : ℤ)
  | timedelta (seconds : ℚ)
  | numeric (seconds : ℚ)
  | noneDur
deriving DecidableEq

/-- audio_utils.py lines 40-48: convert the engine duration to seconds.
An `int` is a count of 100-nanosecond ticks; the plain-numeric branch is
`float(result.duration) if result.duration else 0` (falsy values give 0). -/
def azure_duration_seconds : EngineDuration → ℚ
  | .ticks n => (n : ℚ) / 10000000
  | .timedelta s => s
  | .numeric s => if s ≠ 0 then s else 0
  | .noneDur => 0

/-- audio_utils.py lines 26-64: `calculate_rtf`.  The audio-file probe
`get_audio_duration` returns a duration or `None` on failure; it is
modelled by the `fileDuration : Option ℚ` argument.  The guard on the
probe result is Python's `if file_duration and file_duration > 0`. -/
def calculate_rtf (d : EngineDuration) (fileDuration : Option ℚ) (processing : ℚ) : ℚ :=
  let s := azure_duration_seconds d
  if 0 < s then processing / s
  else
    match fileDuration with
    | some f => if f ≠ 0 then (if 0 < f then processing / f else 0) else 0
    | none => 0

/-! ## azure_speech.py : language configuration (transcribe lines 373-391,
translate lines 490-497) -/

/-- How the recognizer's language is configured before starting. -/
inductive LangConfig
  | autoDetect (candidates : List String)
  | explicitLang (code : String)
deriving DecidableEq

/-- `pyIsSpace` on a `Char`. -/
def pyIsSpaceChar (c : Char) : Bool := pyIsSpace c.toNat

/-- Python `str.strip` on a `String` (ASCII language codes in practice). -/
def pyStripStr (s : String) : String :=
  String.mk (((s.toList.dropWhile pyIsSpaceChar).reverse.dropWhile pyIsSpaceChar).reverse)

/-- azure_speech.py lines 373-391: `transcribe` enables auto language
detection over `["zh-TW", "en-US", "de-DE"]` when
`language is None or language.strip() == ""`, otherwise sets
`speech_recognition_language = LANGUAGE_MATCH.get(language, language)`. -/
def transcribe_language_config (ori : Option String) : LangConfig :=
  match ori with
  | none => .autoDetect ["zh-TW", "en-US", "de-DE"]
  | some l =>
    if pyStripStr l = "" then .autoDetect ["zh-TW", "en-US", "de-DE"]
    else .explicitLang (LANGUAGE_MATCH l)

/-- azure_speech.py lines 490-497: `translate` sets
`speech_recognition_language` from `LANGUAGE_MATCH` when `language` is
truthy, and otherwise falls back to the explicit default `"zh-TW"`
(`language = "zh-TW"`); it never enables auto-detection. -/
def translate_language_config (ori : Option String) : LangConfig :=
  match ori with
  | some l => if l ≠ "" then .explicitLang (LANGUAGE_MATCH l) else .explicitLang "zh-TW"
  | none => .explicitLang "zh-TW"

/-! ## azure_speech.py : heuristic language detection
(transcribe lines 424-443) -/

/-- azure_speech.py lines 428-439: the text-based fallback detection used
when no source language was specified: `if transcription_text:` then test
`any('一' <= char <= '鿿' ...)`, else `"unknown"`. -/
def transcribe_detect_language (text : List Nat) : String :=
  if !text.isEmpty then
    (if text.any isCJK then "zh-TW" else "en-US")
  else "unknown"

/-- azure_speech.py lines 424-443: the language returned by `transcribe`:
heuristic detection when `ori is None or ori.strip() == ""`, otherwise the
forward alias mapping of the supplied code. -/
def transcribe_result_language (ori : Option String) (text : List Nat) : String :=
  match ori with
  | none => transcribe_detect_language text
  | some l =>
    if pyStripStr l = "" then transcribe_detect_language text
    else LANGUAGE_MATCH l

/-- The heuristic as worded in the specification: first test for a CJK
character, then for non-emptiness, else `"unknown"`. -/
def spec_heuristic_language (text : List Nat) : String :=
  if text.any isCJK then "zh-TW"
  else if !text.isEmpty then "en-US"
  else "unknown"

/-! ## azure_speech.py : change_custom_model (lines 63-91) -/

/-- The four configuration attributes of `AzureSpeechModel` that
`change_custom_model` touches (azure_speech.py lines 57-60). -/
structure ModelState where
  model_version : Option String
  subscription_key : Option String
  service_region : Option String
  endpoint_id : Option String
deriving DecidableEq

/-- The values read from the new configuration file with
`config.get(..., None)` (azure_speech.py lines 76-79). -/
structure ModelConfig where
  name : Option String
  subscriptionKey : Option String
  serviceRegion : Option String
  endpointId : Option String
deriving DecidableEq

/-- azure_speech.py lines 63-91: update all four fields and return `True`
iff `name`, `SubscriptionKey` and `ServiceRegion` are all non-`None`;
otherwise leave the state untouched and return `False`. -/
def change_custom_model (s : ModelState) (c : ModelConfig) : ModelState × Bool :=
  if c.name ≠ none ∧ c.subscriptionKey ≠ none ∧ c.serviceRegion ≠ none then
    ({ model_version := c.name, subscription_key := c.subscriptionKey,
       service_region := c.serviceRegion, endpoint_id := c.endpointId }, true)
  else
    (s, false)

/-! ## azure_speech.py : segment aggregation
(`_continuous_recognition_with_timeout`, lines 297-332)

The three regex substitutions are translated to single left-to-right scans
over the code-point list.  `re.sub` scans for non-overlapping leftmost
matches whose lookarounds reference the original string, which for these
patterns coincides with the per-character decisions below. -/

/-- Is the first non-whitespace code point of `l` a CJK ideograph?
(the lookahead `(?=[一-鿿])` seen across a whitespace run). -/
def nextNonWsIsCJK (l : List Nat) : Bool :=
  match l.dropWhile pyIsSpace with
  | d :: _ => isCJK d
  | [] => false

/-- Scan for `re.sub(r'(?<=[一-鿿])\s+(?=[一-鿿])', '', text)`
(azure_speech.py line 305).  The flag records whether the last retained
context character was a CJK ideograph; a whitespace code point is dropped
exactly when that flag holds and the first non-whitespace code point that
follows is again CJK. -/
def gapScan : Bool → List Nat → List Nat
  | _, [] => []
  | prevCJK, c :: rest =>
    if pyIsSpace c then
      if prevCJK && nextNonWsIsCJK rest then gapScan prevCJK rest
      else c :: gapScan false rest
    else c :: gapScan (isCJK c) rest

/-- Is the first non-whitespace code point of `l` one of the six
full-width punctuation marks? -/
def nextNonWsIsPunct (l : List Nat) : Bool :=
  match l.dropWhile pyIsSpace with
  | d :: _ => isCJKPunct d
  | [] => false

/-- Scan for `re.sub(r'\s*([，。？！；：])\s*', r'\1', text)`
(azure_speech.py line 307).  The flag records that a punctuation mark was
just emitted, so following whitespace is absorbed; whitespace whose next
non-whitespace code point is a punctuation mark is likewise dropped. -/
def punctScan : Bool → List Nat → List Nat
  | _, [] => []
  | absorb, c :: rest =>
    if isCJKPunct c then c :: punctScan true rest
    else if pyIsSpace c then
      if absorb then punctScan true rest
      else if nextNonWsIsPunct rest then punctScan false rest
      else c :: punctScan false rest
    else c :: punctScan false rest

/-- Scan for `re.sub(r'\s+', ' ', text)` (azure_speech.py line 309):
collapse every whitespace run to a single U+0020.  The flag records being
inside a run whose first code point was already emitted as a space. -/
def collapseScan : Bool → List Nat → List Nat
  | _, [] => []
  | inRun, c :: rest =>
    if pyIsSpace c then
      if inRun then collapseScan true rest
      else 32 :: collapseScan true rest
    else c :: collapseScan false rest

/-- The normalization applied after joining (azure_speech.py lines
305-309): CJK-gap removal, punctuation-spacing removal, whitespace
collapse, final `strip()`. -/
def cleanSpacing (t : List Nat) : List Nat :=
  pyStrip (collapseScan false (punctScan false (gapScan false t)))

/-- azure_speech.py lines 298-313: `" ".join(transcription_results).strip()`
followed by the three regex substitutions; the empty segment list yields
`""`. -/
def combineSegments (segs : List (List Nat)) : List Nat :=
  if segs.isEmpty then []
  else cleanSpacing (pyStrip (List.intercalate [32] segs))

/-- azure_speech.py lines 317-328: the same join-and-normalize pipeline
applied to each per-language translation stream, in dictionary
(first-arrival) order. -/
def combineTranslationStreams (tr : List (String × List (List Nat))) :
    List (String × List Nat) :=
  tr.map fun p => (p.1, cleanSpacing (pyStrip (List.intercalate [32] p.2)))

/-! ## azure_speech.py : transcribe / translate result shapes
(lines 335-449 and 452-561) -/

/-- The outcome of one continuous-recognition session as delivered by
`_continuous_recognition_with_timeout`: the segments collected in arrival
order, the per-language translation fragments, and whether the timeout
timer fired before a terminal engine event. -/
structure RecogRun where
  segments : List (List Nat)
  translations : List (String × List (List Nat))
  timedOut : Bool
deriving DecidableEq

/-- azure_speech.py lines 351-449: the value returned by `transcribe` as a
function of the session outcome.  `none` models an exception raised
anywhere inside the `try` block (caught at lines 447-449); `elapsed` is
the measured `time.time() - start_time`.  The RTF is computed from the
dummy result whose `duration` is `None` (lines 417-421). -/
def transcribe_run (outcome : Option RecogRun) (ori : Option String)
    (fileDuration : Option ℚ) (elapsed : ℚ) : List Nat × ℚ × ℚ × String :=
  match outcome with
  | none => ([], 0, elapsed, "unknown")
  | some r =>
    if r.timedOut then ([], 0, elapsed, "unknown")
    else
      let text := combineSegments r.segments
      (text, calculate_rtf .noneDur fileDuration elapsed, elapsed,
        transcribe_result_language ori text)

/-- azure_speech.py lines 468-561: the value returned by `translate` as a
function of the session outcome.  On success the raw translation streams
are combined and their keys mapped through `LANGUAGE_MATCH_BACK` only when
the transcription text is non-empty (lines 534-543). -/
def translate_run (outcome : Option RecogRun) (_ori : Option String)
    (fileDuration : Option ℚ) (elapsed : ℚ) :
    List Nat × List (String × List Nat) × ℚ × ℚ :=
  match outcome with
  | none => ([], [], 0, elapsed)
  | some r =>
    if r.timedOut then ([], [], 0, elapsed)
    else
      let text := combineSegments r.segments
      let translations :=
        if !text.isEmpty then
          (combineTranslationStreams r.translations).map
            (fun p => (LANGUAGE_MATCH_BACK p.1, p.2))
        else []
      (text, translations, calculate_rtf .noneDur fileDuration elapsed, elapsed)

/-! ## azure_speech.py : key_test (lines 563-663) -/

/-- Does `sub` occur at the start of `s`? -/
def seqStartsWith : List Char → List Char → Bool
  | _, [] => true
  | [], _ :: _ => false
  | c :: cs, d :: ds => c = d && seqStartsWith cs ds

/-- Does `sub` occur contiguously anywhere in `s`?  (Python's `in`.) -/
def hasSubSeq : List Char → List Char → Bool
  | [], sub => sub.isEmpty
  | c :: tail, sub => seqStartsWith (c :: tail) sub || hasSubSeq tail sub

/-- Python `needle in haystack` on strings. -/
def strContains (haystack needle : String) : Bool :=
  hasSubSeq haystack.toList needle.toList

/-- Python `str.lower()` (ASCII-relevant part). -/
def lowerStr (s : String) : String :=
  String.mk (s.toList.map Char.toLower)

/-- The one-shot recognition outcomes `key_test` branches on
(azure_speech.py lines 630-657): a cancellation whose details carry an
error string when `cancellation_details.reason == Error`, a recognized
result, a no-match result, or any other result reason. -/
inductive TestOutcome
  | canceled (errorDetails : Option String)
  | recognizedSpeech
  | noMatch
  | otherReason (reason : String)

/-- azure_speech.py lines 636-645: the error-text classification chain. -/
def classify_cancellation_error (details : String) : String :=
  if strContains details "401" || strContains details "Unauthorized" then
    "Invalid subscription key"
  else if strContains details "404" || strContains details "Not Found" then
    "Invalid endpoint_id or service region"
  else if strContains details "403" || strContains details "Forbidden" then
    "Access denied or quota exceeded"
  else if strContains details "Connection" || strContains (lowerStr details) "timeout" then
    "Network connection issue or invalid region"
  else
    "Configuration error: " ++ details

/-- azure_speech.py lines 577-663: the `(is_valid, error_message)` pair
returned by `key_test` for each recognition outcome (`is_valid` starts
`False`, `error_message` starts `""`). -/
def key_test (outcome : TestOutcome) : Bool × String :=
  match outcome with
  | .canceled (some details) => (false, classify_cancellation_error details)
  | .canceled none => (true, "")
  | .recognizedSpeech => (true, "")
  | .noMatch => (true, "")
  | .otherReason r => (false, "Unexpected test result: " ++ r)

/-! ## azure_speech.py : _set_dict (lines 103-122) -/

/-- azure_speech.py lines 111-120: `words = list(self.dict)` followed by
`words.extend(prev_text)`.  Because `prev_text` is a `str`, `extend`
appends each of its characters as a separate one-character entry; then
every entry with a truthy `word.strip()` is added as `word.strip()`. -/
def set_dict_phrases (vocab : List (List Nat)) (prev_text : List Nat) :
    List (List Nat) :=
  (vocab ++ prev_text.map fun c => [c]).filterMap fun w =>
    if (pyStrip w).isEmpty then none else some (pyStrip w)

/-- The phrase list as the claim words it: the context vocabulary plus the
caller-supplied prior-context text as an entry of its own, with
empty/whitespace-only entries dropped and retained entries stripped. -/
def claim_set_dict_phrases (vocab : List (List Nat)) (prev_text : List Nat) :
    List (List Nat) :=
  (vocab ++ [prev_text]).filterMap fun w =>
    if (pyStrip w).isEmpty then none else some (pyStrip w)

/-! ## main.py : translate endpoint (lines 382-414) -/

/-- The response status set by the endpoint (`Status.OK` / `Status.FAILED`
from `lib.base_object`, used at main.py lines 302-306 and 408-411). -/
inductive EndpointState
  | ok
  | failed
deriving DecidableEq

/-- Python's `x is {}`: identity comparison against a freshly constructed
empty-dict literal.  The literal allocates a new object, so the comparison
is `False` for every operand. -/
def pyIsEmptyDictLiteral {α : Type} (_ : α) : Bool := false

/-- Overwrite the entry of `o_lang` in an association list (the mapping
update `response_data.translate_text[o_lang] = transcription_text`). -/
def assocSet (m : List (String × List Nat)) (k : String) (v : List Nat) :
    List (String × List Nat) :=
  m.map fun p => if p.1 = k then (p.1, v) else p

/-- main.py lines 390-394: the translation mapping stored in the response:
`if translated_text is {}` copy the transcription into the source-language
slot, else take the translation mapping. -/
def translate_endpoint_text (o_lang : String) (defaultResult : List (String × List Nat))
    (transcription : List Nat) (translated : List (String × List Nat)) :
    List (String × List Nat) :=
  if pyIsEmptyDictLiteral translated then assocSet defaultResult o_lang transcription
  else translated

/-- main.py lines 408-411: the response status:
`if transcription_text == "" and translated_text is {} and rtf == 0`. -/
def translate_endpoint_state (transcription : List Nat)
    (translated : List (String × List Nat)) (rtf : ℚ) : EndpointState :=
  if transcription.isEmpty && pyIsEmptyDictLiteral translated && decide (rtf = 0) then
    .failed
  else .ok

/-- All code points of a list are whitespace. -/
def AllWs (l : List Nat) : Prop := ∀ c ∈ l, pyIsSpace c = true

/-! ## Whitespace classification facts -/

theorem ws_le {c : Nat} (h : pyIsSpace c = true) : c ≤ 12288 := by
  simp only [pyIsSpace, decide_eq_true_eq] at h
  rcases h with h|h|h|h|h|h|h|h|h|h|h|h <;> omega

theorem ws_not_cjk {c : Nat} (h : pyIsSpace c = true) : isCJK c = false := by
  have := ws_le h
  simp only [isCJK, decide_eq_false_iff_not]
  omega

theorem ws_not_punct {c : Nat} (h : pyIsSpace c = true) : isCJKPunct c = false := by
  have := ws_le h
  simp only [isCJKPunct, decide_eq_false_iff_not]
  omega

theorem allWs_takeWhile (l : List Nat) : AllWs (l.takeWhile pyIsSpace) :=
  fun _ hc => List.mem_takeWhile_imp hc

theorem allWs_reverse {l : List Nat} (h : AllWs l) : AllWs l.reverse :=
  fun c hc => h c (List.mem_reverse.mp hc)

theorem allWs_tail {c : Nat} {l : List Nat} (h : AllWs (c :: l)) : AllWs l :=
  fun d hd => h d (List.mem_cons_of_mem c hd)

theorem allWs_head {c : Nat} {l : List Nat} (h : AllWs (c :: l)) : pyIsSpace c = true :=
  h c (List.mem_cons_self c l)

theorem dropWhile_allWs {l : List Nat} (h : AllWs l) : l.dropWhile pyIsSpace = [] :=
  List.dropWhile_eq_nil_iff.mpr h

/-! ## Lookahead lemmas -/

theorem nextNonWsIsCJK_ws_prepend {a : List Nat} (ha : AllWs a) (x : List Nat) :
    nextNonWsIsCJK (a ++ x) = nextNonWsIsCJK x := by
  simp only [nextNonWsIsCJK, List.dropWhile_append_of_pos ha]

theorem nextNonWsIsCJK_ws_append {w : List Nat} (hw : AllWs w) (x : List Nat) :
    nextNonWsIsCJK (x ++ w) = nextNonWsIsCJK x := by
  unfold nextNonWsIsCJK
  rw [List.dropWhile_append]
  by_cases h : (x.dropWhile pyIsSpace).isEmpty
  · have hx : x.dropWhile pyIsSpace = [] := by simpa using h
    rw [if_pos h, dropWhile_allWs hw, hx]
  · rw [if_neg h]
    cases hx : x.dropWhile pyIsSpace with
    | nil => simp [hx] at h
    | cons d t => simp [hx]

theorem nextNonWsIsPunct_ws_prepend {a : List Nat} (ha : AllWs a) (x : List Nat) :
    nextNonWsIsPunct (a ++ x) = nextNonWsIsPunct x := by
  simp only [nextNonWsIsPunct, List.dropWhile_append_of_pos ha]

theorem nextNonWsIsPunct_ws_append {w : List Nat} (hw : AllWs w) (x : List Nat) :
    nextNonWsIsPunct (x ++ w) = nextNonWsIsPunct x := by
  unfold nextNonWsIsPunct
  rw [List.dropWhile_append]
  by_cases h : (x.dropWhile pyIsSpace).isEmpty
  · have hx : x.dropWhile pyIsSpace = [] := by simpa using h
    rw [if_pos h, dropWhile_allWs hw, hx]
  · rw [if_neg h]
    cases hx : x.dropWhile pyIsSpace with
    | nil => simp [hx] at h
    | cons d t => simp [hx]

/-! ## gapScan (CJK-gap removal) around whitespace margins -/

theorem gapScan_allWs {l : List Nat} (h : AllWs l) (b : Bool) : gapScan b l = l := by
  induction l generalizing b with
  | nil => rfl
  | cons c rest ih =>
    have hc := allWs_head h
    have hrest := allWs_tail h
    have hnext : nextNonWsIsCJK rest = false := by
      unfold nextNonWsIsCJK
      rw [dropWhile_allWs hrest]
    simp [gapScan, hc, hnext, ih hrest]

theorem gapScan_ws_prepend {a : List Nat} (ha : AllWs a) (x : List Nat) :
    gapScan false (a ++ x) = a ++ gapScan false x := by
  induction a with
  | nil => rfl
  | cons w a' ih =>
    have hw := allWs_head ha
    simp [gapScan, hw, ih (allWs_tail ha)]

theorem gapScan_ws_append {w : List Nat} (hw : AllWs w) (x : List Nat) (b : Bool) :
    gapScan b (x ++ w) = gapScan b x ++ w := by
  induction x generalizing b with
  | nil => simpa using gapScan_allWs hw b
  | cons c x' ih =>
    by_cases hc : pyIsSpace c = true
    · rw [List.cons_append]
      by_cases hcond : (b && nextNonWsIsCJK x') = true
      · have hcond' : (b && nextNonWsIsCJK (x' ++ w)) = true := by
          rwa [nextNonWsIsCJK_ws_append hw]
        simp [gapScan, hc, hcond, hcond', ih]
      · have hcond' : ¬ (b && nextNonWsIsCJK (x' ++ w)) = true := by
          rwa [nextNonWsIsCJK_ws_append hw]
        simp [gapScan, hc, hcond, hcond', ih]
    · simp [gapScan, hc, ih]

/-! ## punctScan (punctuation-spacing removal) around whitespace margins -/

theorem punctScan_allWs_false {l : List Nat} (h : AllWs l) : punctScan false l = l := by
  induction l with
  | nil => rfl
  | cons c rest ih =>
    have hc := allWs_head h
    have hrest := allWs_tail h
    have hnext : nextNonWsIsPunct rest = false := by
      unfold nextNonWsIsPunct
      rw [dropWhile_allWs hrest]
    simp [punctScan, ws_not_punct hc, hc, hnext, ih hrest]

theorem punctScan_allWs_true {l : List Nat} (h : AllWs l) : punctScan true l = [] := by
  induction l with
  | nil => rfl
  | cons c rest ih =>
    have hc := allWs_head h
    simp [punctScan, ws_not_punct hc, hc, ih (allWs_tail h)]

theorem punctScan_ws_prepend {a : List Nat} (ha : AllWs a) (y : List Nat) :
    punctScan false (a ++ y) =
      if nextNonWsIsPunct y = true then punctScan false y else a ++ punctScan false y := by
  induction a with
  | nil =>
    by_cases hy : nextNonWsIsPunct y = true
    · rw [if_pos hy, List.nil_append]
    · rw [if_neg hy, List.nil_append, List.nil_append]
  | cons w a' ih =>
    have hw := allWs_head ha
    have ha' := allWs_tail ha
    have hcond : nextNonWsIsPunct (a' ++ y) = nextNonWsIsPunct y :=
      nextNonWsIsPunct_ws_prepend ha' y
    by_cases hy : nextNonWsIsPunct y = true
    · rw [if_pos hy]
      have h1 : nextNonWsIsPunct (a' ++ y) = true := by rw [hcond]; exact hy
      simp only [List.cons_append]
      simp [punctScan, ws_not_punct hw, hw, h1]
      rw [ih ha', if_pos hy]
    · rw [if_neg hy]
      have h1 : ¬ nextNonWsIsPunct (a' ++ y) = true := by rw [hcond]; exact hy
      simp only [List.cons_append]
      simp [punctScan, ws_not_punct hw, hw, h1]
      rw [ih ha', if_neg hy]

theorem punctScan_ws_append {w : List Nat} (hw : AllWs w) (x : List Nat) (b : Bool) :
    punctScan b (x ++ w) = punctScan b x ++ w ∨ punctScan b (x ++ w) = punctScan b x := by
  induction x generalizing b with
  | nil =>
    cases b
    · left
      simpa using punctScan_allWs_false hw
    · right
      simpa using punctScan_allWs_true hw
  | cons c x' ih =>
    by_cases hp : isCJKPunct c = true
    · rcases ih true with h | h
      · left
        simp [punctScan, hp, h]
      · right
        simp [punctScan, hp, h]
    · by_cases hc : pyIsSpace c = true
      · cases b
        · have hcond : nextNonWsIsPunct (x' ++ w) = nextNonWsIsPunct x' :=
            nextNonWsIsPunct_ws_append hw x'
          by_cases hnp : nextNonWsIsPunct x' = true
          · have h1 : nextNonWsIsPunct (x' ++ w) = true := by rw [hcond]; exact hnp
            rcases ih false with h | h
            · left
              simp [punctScan, hp, hc, h1, hnp, h]
            · right
              simp [punctScan, hp, hc, h1, hnp, h]
          · have h1 : ¬ nextNonWsIsPunct (x' ++ w) = true := by rw [hcond]; exact hnp
            rcases ih false with h | h
            · left
              simp [punctScan, hp, hc, h1, hnp, h]
            · right
              simp [punctScan, hp, hc, h1, hnp, h]
        · rcases ih true with h | h
          · left
            simp [punctScan, hp, hc, h]
          · right
            simp [punctScan, hp, hc, h]
      · rcases ih false with h | h
        · left
          simp [punctScan, hp, hc, h]
        · right
          simp [punctScan, hp, hc, h]

/-! ## collapseScan (whitespace collapse) around whitespace margins -/

theorem collapseScan_allWs_true {l : List Nat} (h : AllWs l) : collapseScan true l = [] := by
  induction l with
  | nil => rfl
  | cons c rest ih =>
    simp [collapseScan, allWs_head h, ih (allWs_tail h)]

theorem collapseScan_true_ws_prepend {a : List Nat} (ha : AllWs a) (y : List Nat) :
    collapseScan true (a ++ y) = collapseScan true y := by
  induction a with
  | nil => rfl
  | cons w a' ih =>
    simp [collapseScan, allWs_head ha, ih (allWs_tail ha)]

theorem collapseScan_false_ws_prepend {a : List Nat} (ha : AllWs a) (hne : a ≠ [])
    (y : List Nat) : collapseScan false (a ++ y) = 32 :: collapseScan true y := by
  cases a with
  | nil => exact absurd rfl hne
  | cons w a' =>
    simp [collapseScan, allWs_head ha, collapseScan_true_ws_prepend (allWs_tail ha) y]

theorem collapseScan_true_false (y : List Nat) :
    collapseScan true y = collapseScan false y ∨
      32 :: collapseScan true y = collapseScan false y := by
  cases y with
  | nil => left; rfl
  | cons c r =>
    by_cases hc : pyIsSpace c = true
    · right
      simp [collapseScan, hc]
    · left
      simp [collapseScan, hc]

theorem collapseScan_ws_append {w : List Nat} (hw : AllWs w) (x : List Nat) (b : Bool) :
    collapseScan b (x ++ w) = collapseScan b x ∨
      collapseScan b (x ++ w) = collapseScan b x ++ [32] := by
  induction x generalizing b with
  | nil =>
    cases w with
    | nil => left; rfl
    | cons c r =>
      have hc := allWs_head hw
      have hr := allWs_tail hw
      cases b
      · right
        simp [collapseScan, hc, collapseScan_allWs_true hr]
      · left
        simp [collapseScan, hc, collapseScan_allWs_true hr]
  | cons c x' ih =>
    by_cases hc : pyIsSpace c = true
    · cases b
      · rcases ih true with h | h
        · left
          simp [collapseScan, hc, h]
        · right
          simp [collapseScan, hc, h]
      · rcases ih true with h | h
        · left
          simp [collapseScan, hc, h]
        · right
          simp [collapseScan, hc, h]
    · rcases ih false with h | h
      · left
        simp [collapseScan, hc, h]
      · right
        simp [collapseScan, hc, h]

/-! ## pyStrip around whitespace margins -/

theorem pyStrip_ws_cons {c : Nat} (hc : pyIsSpace c = true) (z : List Nat) :
    pyStrip (c :: z) = pyStrip z := by
  simp [pyStrip, List.dropWhile_cons, hc]

theorem pyStrip_ws_concat {c : Nat} (hc : pyIsSpace c = true) (z : List Nat) :
    pyStrip (z ++ [c]) = pyStrip z := by
  unfold pyStrip
  rw [List.dropWhile_append]
  by_cases h : (z.dropWhile pyIsSpace).isEmpty
  · have hz : z.dropWhile pyIsSpace = [] := by simpa using h
    rw [if_pos h, hz]
    simp [List.dropWhile_cons, hc]
  · rw [if_neg h]
    rw [List.reverse_append]
    simp [List.dropWhile_cons, hc]

theorem stripCollapse_ws_append {w : List Nat} (hw : AllWs w) (x : List Nat) :
    pyStrip (collapseScan false (x ++ w)) = pyStrip (collapseScan false x) := by
  rcases collapseScan_ws_append hw x false with h | h
  · rw [h]
  · rw [h, pyStrip_ws_concat (by decide)]

theorem stripCollapse_ws_prepend {a : List Nat} (ha : AllWs a) (x : List Nat) :
    pyStrip (collapseScan false (a ++ x)) = pyStrip (collapseScan false x) := by
  cases a with
  | nil => rfl
  | cons w a' =>
    rw [collapseScan_false_ws_prepend ha (by simp)]
    rcases collapseScan_true_false x with h | h
    · rw [h, pyStrip_ws_cons (by decide)]
    · rw [h]

/-! ## The initial `.strip()` of the join is subsumed by the three rules -/

theorem cleanSpacing_pyStrip (t : List Nat) : cleanSpacing (pyStrip t) = cleanSpacing t := by
  obtain ⟨wsp, u, hallwsp, ht, hu⟩ :
      ∃ wsp u, AllWs wsp ∧ t = wsp ++ u ∧ u = t.dropWhile pyIsSpace :=
    ⟨_, _, allWs_takeWhile t, (List.takeWhile_append_dropWhile pyIsSpace t).symm, rfl⟩
  obtain ⟨m, wss, hallwss, hu2, hm⟩ :
      ∃ m wss, AllWs wss ∧ u = m ++ wss ∧ m = (u.reverse.dropWhile pyIsSpace).reverse := by
    refine ⟨(u.reverse.dropWhile pyIsSpace).reverse, (u.reverse.takeWhile pyIsSpace).reverse,
      allWs_reverse (allWs_takeWhile u.reverse), ?_, rfl⟩
    calc u = u.reverse.reverse := (List.reverse_reverse u).symm
    _ = (u.reverse.takeWhile pyIsSpace ++ u.reverse.dropWhile pyIsSpace).reverse := by
        rw [List.takeWhile_append_dropWhile]
    _ = (u.reverse.dropWhile pyIsSpace).reverse ++ (u.reverse.takeWhile pyIsSpace).reverse := by
        rw [List.reverse_append]
  have hstrip : pyStrip t = m := by
    rw [hm, hu]
    rfl
  rw [hstrip]
  unfold cleanSpacing
  conv_rhs => rw [ht, hu2]
  rw [gapScan_ws_prepend hallwsp, gapScan_ws_append hallwss]
  rw [punctScan_ws_prepend hallwsp]
  rcases punctScan_ws_append hallwss (gapScan false m) false with hP | hP
  · by_cases hif : nextNonWsIsPunct (gapScan false m ++ wss) = true
    · rw [if_pos hif, hP, stripCollapse_ws_append hallwss]
    · rw [if_neg hif, hP, stripCollapse_ws_prepend hallwsp, stripCollapse_ws_append hallwss]
  · by_cases hif : nextNonWsIsPunct (gapScan false m ++ wss) = true
    · rw [if_pos hif, hP]
    · rw [if_neg hif, hP, stripCollapse_ws_prepend hallwsp]

/-- **C2.** For every non-empty ordered sequence of recognized segments the
aggregated text of `_continuous_recognition_with_timeout` (join with a
single space, `strip()`, then the three regex substitutions) equals the
segments joined in arrival order by a single space and normalized by
exactly the three rules in order: `gapScan` removes whitespace runs whose
immediate neighbours are both CJK ideographs, `punctScan` removes
whitespace around the six full-width punctuation marks, and
`collapseScan`+`pyStrip` collapses remaining whitespace runs to one space
and trims the ends; "你好 世界" becomes "你好世界" while "hello 世界"
keeps its space, and each per-language translation stream is normalized by
the same pipeline independently. -/
theorem aggregation_matches_spec_rules :
    (∀ segs : List (List Nat), segs ≠ [] →
        combineSegments segs =
          pyStrip (collapseScan false (punctScan false (gapScan false
            (List.intercalate [32] segs))))) ∧
    combineSegments [[20320, 22909, 32, 19990, 30028]] = [20320, 22909, 19990, 30028] ∧
    combineSegments [[104, 101, 108, 108, 111, 32, 19990, 30028]] =
      [104, 101, 108, 108, 111, 32, 19990, 30028] ∧
    (∀ tr : List (String × List (List Nat)),
        combineTranslationStreams tr =
          tr.map fun p => (p.1, pyStrip (collapseScan false (punctScan false (gapScan false
            (List.intercalate [32] p.2)))))) := by
  refine ⟨?_, by decide, by decide, ?_⟩
  · intro segs hne
    unfold combineSegments
    rw [if_neg (by simpa using hne)]
    exact cleanSpacing_pyStrip (List.intercalate [32] segs)
  · intro tr
    unfold combineTranslationStreams
    refine List.map_congr_left fun p _ => ?_
    rw [cleanSpacing_pyStrip]
    rfl

/-- Witness for `aggregation_matches_spec_rules`: the segments
`["He", "llo"]` aggregate to the spec pipeline's value. -/
theorem aggregation_matches_spec_rules_witness :
    combineSegments [[72, 101], [108, 108, 111]] =
      pyStrip (collapseScan false (punctScan false (gapScan false
        (List.intercalate [32] [[72, 101], [108, 108, 111]])))) :=
  aggregation_matches_spec_rules.1 [[72, 101], [108, 108, 111]] (by decide)

/-- **C1.** Whenever the timeout fires before a terminal engine event
(`timedOut = true`) or an exception is raised inside the `try` block
(outcome `none`), `transcribe` returns `("", 0, elapsed, "unknown")` and
`translate` returns `("", {}, 0, elapsed)`; in the timeout case any
partial segments already collected are discarded — the returned text is
empty regardless of `r.segments`. -/
theorem failure_paths_return_empty_shape :
    ∀ (out : Option RecogRun) (ori : Option String) (fd : Option ℚ) (elapsed : ℚ),
      (out = none →
        transcribe_run out ori fd elapsed = ([], 0, elapsed, "unknown") ∧
        translate_run out ori fd elapsed = ([], [], 0, elapsed)) ∧
      (∀ r : RecogRun, out = some r → r.timedOut = true →
        transcribe_run out ori fd elapsed = ([], 0, elapsed, "unknown") ∧
        translate_run out ori fd elapsed = ([], [], 0, elapsed)) := by
  intro out ori fd elapsed
  constructor
  · rintro rfl
    exact ⟨rfl, rfl⟩
  · rintro r rfl htime
    constructor
    · simp [transcribe_run, htime]
    · simp [translate_run, htime]

/-- Witness for `failure_paths_return_empty_shape`: a timed-out run with a
collected segment "A" and a collected translation fragment still returns
the empty shapes. -/
theorem failure_paths_return_empty_shape_witness :
    transcribe_run (some ⟨[[65]], [("en", [[66]])], true⟩) none none 5 =
      ([], 0, 5, "unknown") ∧
    translate_run (some ⟨[[65]], [("en", [[66]])], true⟩) none none 5 =
      ([], [], 0, 5) :=
  (failure_paths_return_empty_shape (some ⟨[[65]], [("en", [[66]])], true⟩) none none 5).2
    ⟨[[65]], [("en", [[66]])], true⟩ rfl rfl

/-- **C3.** `calculate_rtf` implements the three-step fallback chain: an
engine duration yielding seconds > 0 gives `processing / seconds`; else a
positive probed file duration gives `processing / probed`; else the result
is exactly `0`.  Probed 10 s with processing 2 s gives 0.2, and a probe
failure (`none`) degrades to the 0 sentinel. -/
theorem calculate_rtf_fallback_chain :
    (∀ (d : EngineDuration) (fd : Option ℚ) (p : ℚ),
      (0 < azure_duration_seconds d →
        calculate_rtf d fd p = p / azure_duration_seconds d) ∧
      (¬ 0 < azure_duration_seconds d → ∀ f, fd = some f → 0 < f →
        calculate_rtf d fd p = p / f) ∧
      (¬ 0 < azure_duration_seconds d → (∀ f, fd = some f → ¬ 0 < f) →
        calculate_rtf d fd p = 0)) ∧
    calculate_rtf .noneDur (some 10) 2 = 1 / 5 ∧
    calculate_rtf .noneDur none 2 = 0 := by
  refine ⟨?_, by norm_num [calculate_rtf, azure_duration_seconds],
    by norm_num [calculate_rtf, azure_duration_seconds]⟩
  intro d fd p
  refine ⟨fun h => ?_, fun h f hf hfpos => ?_, fun h hneg => ?_⟩
  · simp only [calculate_rtf]
    rw [if_pos h]
  · subst hf
    simp only [calculate_rtf]
    rw [if_neg h, if_pos (ne_of_gt hfpos), if_pos hfpos]
  · simp only [calculate_rtf]
    rw [if_neg h]
    cases fd with
    | none => rfl
    | some f =>
      have hf := hneg f rfl
      by_cases hf0 : f = 0
      · simp [hf0]
      · show (if f ≠ 0 then if 0 < f then p / f else 0 else 0) = 0
        rw [if_pos hf0, if_neg hf]

/-- Witness for `calculate_rtf_fallback_chain`: an absent engine duration
with a 10-second probed duration and 2 seconds of processing gives RTF
2/10, via the second step of the chain. -/
theorem calculate_rtf_fallback_chain_witness :
    calculate_rtf .noneDur (some 10) 2 = 2 / 10 := by
  have h := (calculate_rtf_fallback_chain.1 .noneDur (some 10) 2).2.1
    (by norm_num [azure_duration_seconds]) 10 rfl (by norm_num)
  simpa using h

/-- **C4.** `key_test` classifies a cancellation's error text in priority
order — 401/Unauthorized, then 404/Not Found, then 403/Forbidden, then
Connection or case-insensitive timeout, then a generic configuration
error — always with `is_valid = false`; a cancellation without an
underlying error, a recognized result, or a no-match result yields
`(true, "")`; any other result reason yields `false` with an
unexpected-result message. -/
theorem key_test_classification :
    (∀ details : String,
      key_test (.canceled (some details)) =
        (false, classify_cancellation_error details) ∧
      ((strContains details "401" = true ∨ strContains details "Unauthorized" = true) →
        classify_cancellation_error details = "Invalid subscription key") ∧
      (strContains details "401" = false → strContains details "Unauthorized" = false →
        (strContains details "404" = true ∨ strContains details "Not Found" = true) →
        classify_cancellation_error details = "Invalid endpoint_id or service region") ∧
      (strContains details "401" = false → strContains details "Unauthorized" = false →
        strContains details "404" = false → strContains details "Not Found" = false →
        (strContains details "403" = true ∨ strContains details "Forbidden" = true) →
        classify_cancellation_error details = "Access denied or quota exceeded") ∧
      (strContains details "401" = false → strContains details "Unauthorized" = false →
        strContains details "404" = false → strContains details "Not Found" = false →
        strContains details "403" = false → strContains details "Forbidden" = false →
        (strContains details "Connection" = true ∨
          strContains (lowerStr details) "timeout" = true) →
        classify_cancellation_error details = "Network connection issue or invalid region") ∧
      (strContains details "401" = false → strContains details "Unauthorized" = false →
        strContains details "404" = false → strContains details "Not Found" = false →
        strContains details "403" = false → strContains details "Forbidden" = false →
        strContains details "Connection" = false →
        strContains (lowerStr details) "timeout" = false →
        classify_cancellation_error details = "Configuration error: " ++ details)) ∧
    key_test (.canceled none) = (true, "") ∧
    key_test .recognizedSpeech = (true, "") ∧
    key_test .noMatch = (true, "") ∧
    (∀ r : String, key_test (.otherReason r) = (false, "Unexpected test result: " ++ r)) := by
  refine ⟨?_, rfl, rfl, rfl, fun _ => rfl⟩
  intro details
  refine ⟨rfl, ?_, ?_, ?_, ?_, ?_⟩
  · rintro (h | h) <;> simp [classify_cancellation_error, h]
  · rintro h1 h2 (h | h) <;> simp [classify_cancellation_error, h1, h2, h]
  · rintro h1 h2 h3 h4 (h | h) <;>
      simp [classify_cancellation_error, h1, h2, h3, h4, h]
  · rintro h1 h2 h3 h4 h5 h6 (h | h) <;>
      simp [classify_cancellation_error, h1, h2, h3, h4, h5, h6, h]
  · intro h1 h2 h3 h4 h5 h6 h7 h8
    simp [classify_cancellation_error, h1, h2, h3, h4, h5, h6, h7, h8]

/-- Witness for `key_test_classification`: details containing "401" give
`(false, "Invalid subscription key")`, per the claim's example. -/
theorem key_test_classification_witness :
    key_test (.canceled (some "401")) = (false, classify_cancellation_error "401") ∧
    classify_cancellation_error "401" = "Invalid subscription key" :=
  ⟨(key_test_classification.1 "401").1,
   (key_test_classification.1 "401").2.1 (Or.inl (by decide))⟩

/-- **C5, counterexample.** In `translate`, an empty (or `None`) source
language does not enable auto-detection: the recognizer is configured with
the explicit default `"zh-TW"` (azure_speech.py lines 493-497), refuting
the claim that both modes auto-detect over {zh-TW, en-US, de-DE} on an
empty language spec. -/
theorem translate_empty_language_not_autodetect :
    translate_language_config (some "") = .explicitLang "zh-TW" ∧
    translate_language_config (some "") ≠ .autoDetect ["zh-TW", "en-US", "de-DE"] ∧
    translate_language_config none ≠ .autoDetect ["zh-TW", "en-US", "de-DE"] :=
  ⟨rfl, by decide, by decide⟩

/-- **C5, amended.** In Transcribe mode an absent or whitespace-only
language spec enables auto-detection over exactly {zh-TW, en-US, de-DE}
and a non-blank spec maps through the forward alias table; in Translate
mode an absent or empty spec selects the explicit default `"zh-TW"` and a
non-empty spec maps through the forward alias table. -/
theorem language_configuration_amended :
    ∀ ori : Option String,
      ((ori = none ∨ ∃ l, ori = some l ∧ pyStripStr l = "") →
        transcribe_language_config ori = .autoDetect ["zh-TW", "en-US", "de-DE"]) ∧
      (∀ l, ori = some l → pyStripStr l ≠ "" →
        transcribe_language_config ori = .explicitLang (LANGUAGE_MATCH l)) ∧
      ((ori = none ∨ ori = some "") →
        translate_language_config ori = .explicitLang "zh-TW") ∧
      (∀ l, ori = some l → l ≠ "" →
        translate_language_config ori = .explicitLang (LANGUAGE_MATCH l)) := by
  intro ori
  refine ⟨?_, ?_, ?_, ?_⟩
  · rintro (rfl | ⟨l, rfl, hl⟩)
    · rfl
    · simp [transcribe_language_config, hl]
  · rintro l rfl hl
    simp [transcribe_language_config, hl]
  · rintro (rfl | rfl) <;> rfl
  · rintro l rfl hl
    simp [translate_language_config, hl]

/-- Witness for `language_configuration_amended`: `"zh"` maps through the
alias table in both modes, and `translate` with no language defaults to
`"zh-TW"`. -/
theorem language_configuration_amended_witness :
    transcribe_language_config (some "zh") = .explicitLang (LANGUAGE_MATCH "zh") ∧
    translate_language_config none = .explicitLang "zh-TW" :=
  ⟨(language_configuration_amended (some "zh")).2.1 "zh" rfl (by decide),
   (language_configuration_amended none).2.2.1 (Or.inl rfl)⟩

/-- **C6, counterexample.** `_set_dict` extends the word list with
`words.extend(prev_text)` where `prev_text` is a string, so the phrase
list receives one entry per character: with an empty vocabulary and prior
context "hi" the engine is loaded with ["h", "i"], not with the entry
"hi" that the claim's reading produces. -/
theorem set_dict_characterwise_counterexample :
    set_dict_phrases [] [104, 105] = [[104], [105]] ∧
    set_dict_phrases [] [104, 105] ≠ claim_set_dict_phrases [] [104, 105] :=
  ⟨by decide, by decide⟩

/-- **C6, amended.** The phrase list consists of the context-vocabulary
entries followed by one entry per character of the prior-context string;
empty/whitespace-only entries are dropped and every retained entry is the
stripped form of an original entry. -/
theorem set_dict_phrases_amended :
    ∀ (vocab : List (List Nat)) (prev : List Nat),
      set_dict_phrases vocab prev =
        (vocab ++ prev.map fun c => [c]).filterMap (fun w =>
          if (pyStrip w).isEmpty then none else some (pyStrip w)) ∧
      ∀ w ∈ set_dict_phrases vocab prev, w ≠ [] ∧
        ∃ w2 ∈ vocab ++ prev.map (fun c => [c]), w = pyStrip w2 := by
  intro vocab prev
  refine ⟨rfl, ?_⟩
  intro w hw
  unfold set_dict_phrases at hw
  rw [List.mem_filterMap] at hw
  obtain ⟨a, ha, hfa⟩ := hw
  by_cases he : (pyStrip a).isEmpty
  · rw [if_pos he] at hfa
    exact absurd hfa (by simp)
  · rw [if_neg he] at hfa
    obtain rfl := Option.some.inj hfa
    refine ⟨?_, a, ha, rfl⟩
    intro hnil
    rw [hnil] at he
    exact he rfl

/-- Witness for `set_dict_phrases_amended`: the stripped entry " a "
appears as "a", non-empty and stripped. -/
theorem set_dict_phrases_amended_witness :
    [97] ≠ ([] : List Nat) ∧
    ∃ w2 ∈ [[32, 97, 32]] ++ ([] : List Nat).map (fun c => [c]), [97] = pyStrip w2 :=
  (set_dict_phrases_amended [[32, 97, 32]] []).2 [97] (by decide)

/-- **C7.** The identity comparison `translated_text is {}` in the
translate endpoint (main.py lines 391 and 410) is never true, so the
branch copying the transcription into the source-language slot is
unreachable and the failure-state conjunct never holds: the stored mapping
is always the translation result and the identity-based condition never
switches the status. -/
theorem empty_dict_identity_branch_unreachable :
    (∀ (o_lang : String) (dflt : List (String × List Nat)) (tx : List Nat)
        (tr : List (String × List Nat)),
      translate_endpoint_text o_lang dflt tx tr = tr) ∧
    (∀ (tx : List Nat) (tr : List (String × List Nat)) (rtf : ℚ),
      translate_endpoint_state tx tr rtf = .ok) ∧
    (∀ tr : List (String × List Nat), pyIsEmptyDictLiteral tr = false) := by
  refine ⟨fun _ _ _ _ => rfl, fun tx tr rtf => ?_, fun _ => rfl⟩
  simp [translate_endpoint_state, pyIsEmptyDictLiteral]

/-- **C8.** The forward alias table maps exactly zh→zh-TW, en→en-US,
de→de-DE and passes every other code through; the backward table maps
exactly zh-Hant→zh, zh-TW→zh, en-US→en, de-DE→de and passes every other
code through; the round trip holds on every code of `LANGUAGE_LIST`. -/
theorem language_alias_tables :
    LANGUAGE_MATCH "zh" = "zh-TW" ∧ LANGUAGE_MATCH "en" = "en-US" ∧
    LANGUAGE_MATCH "de" = "de-DE" ∧
    (∀ c : String, c ≠ "zh" → c ≠ "en" → c ≠ "de" → LANGUAGE_MATCH c = c) ∧
    LANGUAGE_MATCH_BACK "zh-Hant" = "zh" ∧ LANGUAGE_MATCH_BACK "zh-TW" = "zh" ∧
    LANGUAGE_MATCH_BACK "en-US" = "en" ∧ LANGUAGE_MATCH_BACK "de-DE" = "de" ∧
    (∀ c : String, c ≠ "zh-Hant" → c ≠ "zh-TW" → c ≠ "en-US" → c ≠ "de-DE" →
      LANGUAGE_MATCH_BACK c = c) ∧
    (∀ c ∈ LANGUAGE_LIST, LANGUAGE_MATCH_BACK (LANGUAGE_MATCH c) = c) := by
  refine ⟨rfl, rfl, rfl, fun c h1 h2 h3 => ?_, rfl, rfl, rfl, rfl,
    fun c h1 h2 h3 h4 => ?_, ?_⟩
  · simp [LANGUAGE_MATCH, h1, h2, h3]
  · simp [LANGUAGE_MATCH_BACK, h1, h2, h3, h4]
  · intro c hc
    simp only [LANGUAGE_LIST, List.mem_cons, List.not_mem_nil, or_false] at hc
    rcases hc with rfl | rfl | rfl <;> rfl

/-- Witness for `language_alias_tables`: the unknown code "fr" passes
through both tables and "zh" round-trips. -/
theorem language_alias_tables_witness :
    LANGUAGE_MATCH "fr" = "fr" ∧ LANGUAGE_MATCH_BACK "fr" = "fr" ∧
    LANGUAGE_MATCH_BACK (LANGUAGE_MATCH "zh") = "zh" :=
  ⟨language_alias_tables.2.2.2.1 "fr" (by decide) (by decide) (by decide),
   language_alias_tables.2.2.2.2.2.2.2.2.1 "fr" (by decide) (by decide) (by decide) (by decide),
   language_alias_tables.2.2.2.2.2.2.2.2.2 "zh" (by decide)⟩

/-- **C9.** With no explicit requested language, the language returned by
`transcribe` equals the spec's heuristic on the aggregated text: at least
one U+4E00–U+9FFF character gives "zh-TW", otherwise non-empty text gives
"en-US", and empty text gives "unknown". -/
theorem heuristic_language_detection :
    ∀ (ori : Option String) (text : List Nat),
      (ori = none ∨ ∃ l, ori = some l ∧ pyStripStr l = "") →
      transcribe_result_language ori text = spec_heuristic_language text := by
  intro ori text h
  have hdet : transcribe_detect_language text = spec_heuristic_language text := by
    unfold transcribe_detect_language spec_heuristic_language
    by_cases hcjk : text.any isCJK = true
    · have hne : text.isEmpty = false := by
        cases text with
        | nil => simp at hcjk
        | cons a l => rfl
      simp [hcjk, hne]
    · by_cases hne : text.isEmpty
      · simp [hcjk, hne]
      · simp [hcjk, hne]
  rcases h with rfl | ⟨l, rfl, hl⟩
  · exact hdet
  · simp only [transcribe_result_language, hl, if_pos]
    exact hdet

/-- Witness for `heuristic_language_detection`: the single CJK character
U+4F60 gives "zh-TW" under auto-detection. -/
theorem heuristic_language_detection_witness :
    transcribe_result_language none [20320] = spec_heuristic_language [20320] :=
  heuristic_language_detection none [20320] (Or.inl rfl)

/-- **C10.** `change_custom_model` is atomic: when `name`,
`SubscriptionKey` and `ServiceRegion` are all present it replaces all four
credential fields (including the possibly-absent `EndpointId`) and returns
`True`; when any of the three is missing it returns `False` and every
field keeps exactly its previous value. -/
theorem change_custom_model_atomic :
    ∀ (s : ModelState) (c : ModelConfig),
      (c.name ≠ none → c.subscriptionKey ≠ none → c.serviceRegion ≠ none →
        change_custom_model s c =
          ({ model_version := c.name, subscription_key := c.subscriptionKey,
             service_region := c.serviceRegion, endpoint_id := c.endpointId }, true)) ∧
      ((c.name = none ∨ c.subscriptionKey = none ∨ c.serviceRegion = none) →
        change_custom_model s c = (s, false)) := by
  intro s c
  constructor
  · intro h1 h2 h3
    simp only [change_custom_model]
    rw [if_pos ⟨h1, h2, h3⟩]
  · intro h
    simp only [change_custom_model]
    rw [if_neg]
    rintro ⟨h1, h2, h3⟩
    rcases h with h | h | h <;> contradiction

/-- Witness for `change_custom_model_atomic`: a configuration missing its
`name` leaves the state untouched and returns `False`. -/
theorem change_custom_model_atomic_witness :
    change_custom_model ⟨some "a", some "b", some "c", none⟩
        ⟨none, some "k", some "r", none⟩ =
      (⟨some "a", some "b", some "c", none⟩, false) :=
  (change_custom_model_atomic ⟨some "a", some "b", some "c", none⟩
    ⟨none, some "k", some "r", none⟩).2 (Or.inl rfl)

end Babelon
